import Mathlib

/-!
Verification of the medvision-ai backend core against its specification.

The Python sources are shallowly embedded: bytes are `Nat` values below 256
(`List Nat` for byte strings), Python `str` values are Lean `String`s, and
their UTF-8 encodings are produced by `utf8Bytes`.  Stateful endpoints are
embedded as explicit state-passing functions over a record-store state.
Library primitives the code calls (hashlib SHA-256, hmac, base64, AES-256-GCM
from the cryptography package) are embedded by their standard semantics
(FIPS 180-4, RFC 2104, RFC 4648, NIST SP 800-38D), which is what the Python
calls compute.
-/

namespace MedVision

/-- UTF-8 encoding of a single Unicode code point (Python `str.encode("utf-8")`,
one character). -/
def utf8EncodeCp (n : Nat) : List Nat :=
  if n < 0x80 then [n]
  else if n < 0x800 then [0xC0 + n / 64, 0x80 + n % 64]
  else if n < 0x10000 then [0xE0 + n / 4096, 0x80 + n / 64 % 64, 0x80 + n % 64]
  else [0xF0 + n / 262144, 0x80 + n / 4096 % 64, 0x80 + n / 64 % 64, 0x80 + n % 64]

/-- UTF-8 encoding of a string as a byte list (Python `s.encode("utf-8")`). -/
def utf8Bytes (s : String) : List Nat :=
  s.data.flatMap (fun c => utf8EncodeCp c.toNat)

/-- Big-endian byte rendering of `n` in exactly `k` bytes. -/
def natToBytesBE : Nat → Nat → List Nat
  | 0, _ => []
  | k + 1, n => natToBytesBE k (n / 256) ++ [n % 256]

/-- Big-endian byte list to natural number. -/
def bytesToNatBE (l : List Nat) : Nat :=
  l.foldl (fun acc b => acc * 256 + b) 0

/-! ### Base64 (Python `base64.b64encode` / `base64.b64decode`, RFC 4648) -/

/-- The base64 alphabet as ASCII codes: A-Z, a-z, 0-9, `+`, `/`. -/
def b64Table : List Nat :=
  (List.range 26).map (fun i => 65 + i) ++
  (List.range 26).map (fun i => 97 + i) ++
  (List.range 10).map (fun i => 48 + i) ++ [43, 47]

/-- ASCII code of the base64 character for a sextet. -/
def sextetToChar (s : Nat) : Nat := b64Table.getD s 0

/-- Sextet value of a base64 character (ASCII code). -/
def charToSextet (c : Nat) : Nat := b64Table.indexOf c

/-- Python `base64.b64encode`: bytes to the ASCII codes of the encoding,
with `=` (61) padding. -/
def b64encode : List Nat → List Nat
  | [] => []
  | [a] => [sextetToChar (a / 4), sextetToChar (a % 4 * 16), 61, 61]
  | [a, b] => [sextetToChar (a / 4), sextetToChar (a % 4 * 16 + b / 16),
               sextetToChar (b % 16 * 4), 61]
  | a :: b :: c :: rest =>
      sextetToChar (a / 4) :: sextetToChar (a % 4 * 16 + b / 16) ::
      sextetToChar (b % 16 * 4 + c / 64) :: sextetToChar (c % 64) ::
      b64encode rest

/-- Python `base64.b64decode` on well-formed input: groups of four
characters back to bytes, honouring `=` padding on the final group. -/
def b64decode : List Nat → List Nat
  | w :: x :: y :: z :: rest =>
      if z = 61 then
        if y = 61 then
          [charToSextet w * 4 + charToSextet x / 16]
        else
          [charToSextet w * 4 + charToSextet x / 16,
           charToSextet x % 16 * 16 + charToSextet y / 4]
      else
        (charToSextet w * 4 + charToSextet x / 16) ::
        (charToSextet x % 16 * 16 + charToSextet y / 4) ::
        (charToSextet y % 4 * 64 + charToSextet z) ::
        b64decode rest
  | _ => []

/-! ### SHA-256 (Python `hashlib.sha256`, FIPS 180-4) -/

/-- Split a list into chunks of `k` elements (the last chunk may be shorter). -/
def chunksOf (k : Nat) (l : List Nat) : List (List Nat) :=
  if l = [] ∨ k = 0 then [] else l.take k :: chunksOf k (l.drop k)
termination_by l.length
decreasing_by
  simp only [not_or] at *
  have : 0 < k := Nat.pos_of_ne_zero (by tauto)
  have : l.length ≠ 0 := by
    simp only [ne_eq, List.length_eq_zero]
    tauto
  simp [List.length_drop]
  omega

/-- The 64 SHA-256 round constants. -/
def shaK : List Nat :=
  [1116352408, 1899447441, 3049323471, 3921009573, 961987163,
   1508970993, 2453635748, 2870763221, 3624381080, 310598401,
   607225278, 1426881987, 1925078388, 2162078206, 2614888103,
   3248222580, 3835390401, 4022224774, 264347078, 604807628,
   770255983, 1249150122, 1555081692, 1996064986, 2554220882,
   2821834349, 2952996808, 3210313671, 3336571891, 3584528711,
   113926993, 338241895, 666307205, 773529912, 1294757372,
   1396182291, 1695183700, 1986661051, 2177026350, 2456956037,
   2730485921, 2820302411, 3259730800, 3345764771, 3516065817,
   3600352804, 4094571909, 275423344, 430227734, 506948616,
   659060556, 883997877, 958139571, 1322822218, 1537002063,
   1747873779, 1955562222, 2024104815, 2227730452, 2361852424,
   2428436474, 2756734187, 3204031479, 3329325298]

/-- The SHA-256 initial hash value. -/
def shaInitH : List Nat :=
  [1779033703, 3144134277, 1013904242, 2773480762,
   1359893119, 2600822924, 528734635, 1541459225]

/-- Right rotation of a 32-bit word. -/
def rotr32 (n x : Nat) : Nat := ((x >>> n) ||| (x <<< (32 - n))) % 4294967296

def bsig0 (x : Nat) : Nat := rotr32 2 x ^^^ rotr32 13 x ^^^ rotr32 22 x

def bsig1 (x : Nat) : Nat := rotr32 6 x ^^^ rotr32 11 x ^^^ rotr32 25 x

def ssig0 (x : Nat) : Nat := rotr32 7 x ^^^ rotr32 18 x ^^^ (x >>> 3)

def ssig1 (x : Nat) : Nat := rotr32 17 x ^^^ rotr32 19 x ^^^ (x >>> 10)

def chF (x y z : Nat) : Nat := (x &&& y) ^^^ ((x ^^^ 4294967295) &&& z)

def majF (x y z : Nat) : Nat := (x &&& y) ^^^ (x &&& z) ^^^ (y &&& z)

/-- Extend a 16-word message block by `k` further schedule words. -/
def shaExtend (w : List Nat) : Nat → List Nat
  | 0 => w
  | k + 1 =>
    let n := w.length
    let nw := (ssig1 (w.getD (n - 2) 0) + w.getD (n - 7) 0 +
               ssig0 (w.getD (n - 15) 0) + w.getD (n - 16) 0) % 4294967296
    shaExtend (w ++ [nw]) k

/-- One SHA-256 compression-function application. -/
def shaCompressBlock (h : List Nat) (block : List Nat) : List Nat :=
  let w := shaExtend block 48
  let st := (List.zip shaK w).foldl (fun s kw =>
    match s with
    | [a, b, c, d, e, f, g, hh] =>
      let t1 := (hh + bsig1 e + chF e f g + kw.1 + kw.2) % 4294967296
      let t2 := (bsig0 a + majF a b c) % 4294967296
      [(t1 + t2) % 4294967296, a, b, c, (d + t1) % 4294967296, e, f, g]
    | s => s) h
  (List.zip h st).map (fun p => (p.1 + p.2) % 4294967296)

/-- SHA-256 padding: append `0x80`, zeros, and the 64-bit bit length. -/
def shaPad (msg : List Nat) : List Nat :=
  msg ++ [128] ++ List.replicate ((64 - (msg.length + 9) % 64) % 64) 0 ++
  natToBytesBE 8 (msg.length * 8)

/-- SHA-256 digest of a byte string, as 32 bytes
(Python `hashlib.sha256(b).digest()`). -/
def sha256 (msg : List Nat) : List Nat :=
  let blocks := chunksOf 64 (shaPad msg)
  let hFinal := blocks.foldl
    (fun h b => shaCompressBlock h ((chunksOf 4 b).map bytesToNatBE)) shaInitH
  hFinal.flatMap (fun wd => natToBytesBE 4 wd)

/-! ### HMAC-SHA256 (Python `hmac.new(key, msg, hashlib.sha256)`, RFC 2104) -/

/-- HMAC-SHA256 digest. -/
def hmacSha256 (key msg : List Nat) : List Nat :=
  let k0 := if key.length > 64 then sha256 key else key
  let k0p := k0 ++ List.replicate (64 - k0.length) 0
  sha256 ((k0p.map (fun b => b ^^^ 92)) ++
          sha256 ((k0p.map (fun b => b ^^^ 54)) ++ msg))

/-! ### EncryptionService master key and signatures
(src/backend/app/services/encryption_service.py) -/

/-- The development master-key seed
(`b"medvision-dev-key-change-in-production"`). -/
def devMasterKeySeed : List Nat := utf8Bytes "medvision-dev-key-change-in-production"

/-- Embeds `EncryptionService.__init__`: the 32-byte master key is the SHA-256 of the
`ENCRYPTION_MASTER_KEY` environment value, or of the development seed when the
variable is empty or unset (empty strings are falsy in Python). -/
def masterKey (env : List Nat) : List Nat :=
  sha256 (if env = [] then devMasterKeySeed else env)

/-- Embeds `EncryptionService.generate_signature`: base64 of the HMAC-SHA256, keyed
by the master key, of `doctor_id ++ ":" ++ timestamp.isoformat() ++ ":" ++
content`.  The datetime argument is embedded as its ISO-8601 rendering
`tsIso`.  Returns the ASCII codes of the base64 text. -/
def generate_signature (master : List Nat) (content doctorId tsIso : String) :
    List Nat :=
  b64encode (hmacSha256 master (utf8Bytes (doctorId ++ ":" ++ tsIso ++ ":" ++ content)))

/-- Embeds `EncryptionService.verify_signature`: recompute and compare
(`hmac.compare_digest` is a timing-safe equality test). -/
def verify_signature (master : List Nat) (content doctorId tsIso : String)
    (signature : List Nat) : Bool :=
  signature == generate_signature master content doctorId tsIso

/-! ### AES-256 block cipher (FIPS 197), the primitive under
`cryptography.hazmat.primitives.ciphers.aead.AESGCM` -/

/-- The AES S-box (the multiplicative inverse in GF(2^8) followed by the
FIPS 197 affine transform; values as in the standard's table). -/
def sboxTable : List Nat :=
  [0x63, 0x7c, 0x77, 0x7b, 0xf2, 0x6b, 0x6f, 0xc5,
   0x30, 0x01, 0x67, 0x2b, 0xfe, 0xd7, 0xab, 0x76,
   0xca, 0x82, 0xc9, 0x7d, 0xfa, 0x59, 0x47, 0xf0,
   0xad, 0xd4, 0xa2, 0xaf, 0x9c, 0xa4, 0x72, 0xc0,
   0xb7, 0xfd, 0x93, 0x26, 0x36, 0x3f, 0xf7, 0xcc,
   0x34, 0xa5, 0xe5, 0xf1, 0x71, 0xd8, 0x31, 0x15,
   0x04, 0xc7, 0x23, 0xc3, 0x18, 0x96, 0x05, 0x9a,
   0x07, 0x12, 0x80, 0xe2, 0xeb, 0x27, 0xb2, 0x75,
   0x09, 0x83, 0x2c, 0x1a, 0x1b, 0x6e, 0x5a, 0xa0,
   0x52, 0x3b, 0xd6, 0xb3, 0x29, 0xe3, 0x2f, 0x84,
   0x53, 0xd1, 0x00, 0xed, 0x20, 0xfc, 0xb1, 0x5b,
   0x6a, 0xcb, 0xbe, 0x39, 0x4a, 0x4c, 0x58, 0xcf,
   0xd0, 0xef, 0xaa, 0xfb, 0x43, 0x4d, 0x33, 0x85,
   0x45, 0xf9, 0x02, 0x7f, 0x50, 0x3c, 0x9f, 0xa8,
   0x51, 0xa3, 0x40, 0x8f, 0x92, 0x9d, 0x38, 0xf5,
   0xbc, 0xb6, 0xda, 0x21, 0x10, 0xff, 0xf3, 0xd2,
   0xcd, 0x0c, 0x13, 0xec, 0x5f, 0x97, 0x44, 0x17,
   0xc4, 0xa7, 0x7e, 0x3d, 0x64, 0x5d, 0x19, 0x73,
   0x60, 0x81, 0x4f, 0xdc, 0x22, 0x2a, 0x90, 0x88,
   0x46, 0xee, 0xb8, 0x14, 0xde, 0x5e, 0x0b, 0xdb,
   0xe0, 0x32, 0x3a, 0x0a, 0x49, 0x06, 0x24, 0x5c,
   0xc2, 0xd3, 0xac, 0x62, 0x91, 0x95, 0xe4, 0x79,
   0xe7, 0xc8, 0x37, 0x6d, 0x8d, 0xd5, 0x4e, 0xa9,
   0x6c, 0x56, 0xf4, 0xea, 0x65, 0x7a, 0xae, 0x08,
   0xba, 0x78, 0x25, 0x2e, 0x1c, 0xa6, 0xb4, 0xc6,
   0xe8, 0xdd, 0x74, 0x1f, 0x4b, 0xbd, 0x8b, 0x8a,
   0x70, 0x3e, 0xb5, 0x66, 0x48, 0x03, 0xf6, 0x0e,
   0x61, 0x35, 0x57, 0xb9, 0x86, 0xc1, 0x1d, 0x9e,
   0xe1, 0xf8, 0x98, 0x11, 0x69, 0xd9, 0x8e, 0x94,
   0x9b, 0x1e, 0x87, 0xe9, 0xce, 0x55, 0x28, 0xdf,
   0x8c, 0xa1, 0x89, 0x0d, 0xbf, 0xe6, 0x42, 0x68,
   0x41, 0x99, 0x2d, 0x0f, 0xb0, 0x54, 0xbb, 0x16]

def sbox (b : Nat) : Nat := sboxTable.getD b 0

/-- The `xtime` map: multiplication by `x` in GF(2^8) modulo `x^8+x^4+x^3+x+1`. -/
def xtime (a : Nat) : Nat := if a ≥ 128 then (a * 2) ^^^ 283 else a * 2

/-- SubWord on a big-endian 32-bit word. -/
def subWord (w : Nat) : Nat := bytesToNatBE ((natToBytesBE 4 w).map sbox)

/-- RotWord on a big-endian 32-bit word. -/
def rotWord (w : Nat) : Nat := w % 16777216 * 256 + w / 16777216

/-- The round-constant words `Rcon[1..7]` used by the AES-256 key schedule. -/
def rconW : List Nat :=
  [0x01000000, 0x02000000, 0x04000000, 0x08000000,
   0x10000000, 0x20000000, 0x40000000]

/-- Append `fuel` further words of the AES key schedule. -/
def keyExpandAux (w : List Nat) : Nat → List Nat
  | 0 => w
  | k + 1 =>
    let i := w.length
    let t0 := w.getD (i - 1) 0
    let t := if i % 8 == 0 then subWord (rotWord t0) ^^^ rconW.getD (i / 8 - 1) 0
             else if i % 8 == 4 then subWord t0
             else t0
    keyExpandAux (w ++ [w.getD (i - 8) 0 ^^^ t]) k

/-- AES-256 key expansion: 8 initial words from the 32-byte key,
52 generated words, 60 in total. -/
def keyExpansion (key : List Nat) : List Nat :=
  keyExpandAux ((List.range 8).map (fun i => bytesToNatBE ((key.drop (4 * i)).take 4))) 52

/-- The 16 bytes of round key `r`. -/
def roundKey (w : List Nat) (r : Nat) : List Nat :=
  ((w.drop (4 * r)).take 4).flatMap (natToBytesBE 4)

/-- ShiftRows as an index permutation of the column-major state. -/
def shiftRowsIdx : List Nat := [0, 5, 10, 15, 4, 9, 14, 3, 8, 13, 2, 7, 12, 1, 6, 11]

def shiftRows (s : List Nat) : List Nat := shiftRowsIdx.map (fun i => s.getD i 0)

/-- MixColumns on one 4-byte column. -/
def mixColumn : List Nat → List Nat
  | [a0, a1, a2, a3] =>
      [xtime a0 ^^^ (xtime a1 ^^^ a1) ^^^ a2 ^^^ a3,
       a0 ^^^ xtime a1 ^^^ (xtime a2 ^^^ a2) ^^^ a3,
       a0 ^^^ a1 ^^^ xtime a2 ^^^ (xtime a3 ^^^ a3),
       (xtime a0 ^^^ a0) ^^^ a1 ^^^ a2 ^^^ xtime a3]
  | s => s

def mixColumns (s : List Nat) : List Nat := (chunksOf 4 s).flatMap mixColumn

def addRoundKey (s rk : List Nat) : List Nat := List.zipWith (fun a b => a ^^^ b) s rk

/-- AES-256 encryption of one 16-byte block under a 32-byte key. -/
def aesEncryptBlock (key block : List Nat) : List Nat :=
  let w := keyExpansion key
  let st0 := addRoundKey block (roundKey w 0)
  let st := (List.range 13).foldl
    (fun s r => addRoundKey (mixColumns (shiftRows (s.map sbox))) (roundKey w (r + 1))) st0
  addRoundKey (shiftRows (st.map sbox)) (roundKey w 14)

/-! ### GCM mode (NIST SP 800-38D) as used by `AESGCM` with the 12-byte
nonces this service always generates -/

/-- The GHASH reduction constant `R = 0xe1 || 0^120`. -/
def gcmR : Nat := 0xe1000000000000000000000000000000

/-- Multiplication in GF(2^128) as specified for GHASH (blocks as big-endian
128-bit naturals). -/
def gcmMul (x y : Nat) : Nat :=
  ((List.range 128).foldl
    (fun zv i =>
      (if x.testBit (127 - i) then zv.1 ^^^ zv.2 else zv.1,
       if zv.2 % 2 == 1 then zv.2 / 2 ^^^ gcmR else zv.2 / 2))
    (0, y)).1

/-- GHASH over a list of 128-bit blocks. -/
def ghash (h : Nat) (blocks : List Nat) : Nat :=
  blocks.foldl (fun y b => gcmMul (y ^^^ b) h) 0

/-- Zero-pad a byte string to 16-byte blocks, as 128-bit naturals. -/
def padBlocks (l : List Nat) : List Nat :=
  (chunksOf 16 l).map (fun c => bytesToNatBE (c ++ List.replicate (16 - c.length) 0))

/-- Increment the low 32 bits of a counter block. -/
def inc32 (x : Nat) : Nat := x - x % 4294967296 + (x % 4294967296 + 1) % 4294967296

/-- The `n` successive counter blocks following `x`. -/
def counterFrom (x : Nat) : Nat → List Nat
  | 0 => []
  | k + 1 => inc32 x :: counterFrom (inc32 x) k

/-- The CTR keystream for `len` bytes starting after counter block `j0`. -/
def gcmKeystream (key : List Nat) (j0 : Nat) (len : Nat) : List Nat :=
  ((counterFrom j0 ((len + 15) / 16)).flatMap
    (fun cb => aesEncryptBlock key (natToBytesBE 16 cb))).take len

/-- The GCM authentication tag over associated data and ciphertext. -/
def gcmTag (key : List Nat) (j0 : Nat) (aad ct : List Nat) : List Nat :=
  let h := bytesToNatBE (aesEncryptBlock key (List.replicate 16 0))
  let s := ghash h (padBlocks aad ++ padBlocks ct ++
                    [aad.length * 8 * 18446744073709551616 + ct.length * 8])
  natToBytesBE 16 (s ^^^ bytesToNatBE (aesEncryptBlock key (natToBytesBE 16 j0)))

/-- Embeds `AESGCM(key).encrypt(iv, pt, aad)` for a 12-byte IV: ciphertext body
(CTR stream XOR) followed by the 16-byte tag. -/
def gcmEncrypt (key iv pt aad : List Nat) : List Nat :=
  let j0 := bytesToNatBE (iv ++ [0, 0, 0, 1])
  let ct := List.zipWith (fun a b => a ^^^ b) pt (gcmKeystream key j0 pt.length)
  ct ++ gcmTag key j0 aad ct

/-- Embeds `AESGCM(key).decrypt(iv, data, aad)`: split off the 16-byte tag,
recompute it over the received body, fail (`none`, the library's
`InvalidTag`) on mismatch, otherwise return the CTR decryption. -/
def gcmDecrypt (key iv data aad : List Nat) : Option (List Nat) :=
  if data.length < 16 then none
  else
    let ct := data.take (data.length - 16)
    let tag := data.drop (data.length - 16)
    let j0 := bytesToNatBE (iv ++ [0, 0, 0, 1])
    if gcmTag key j0 aad ct = tag then
      some (List.zipWith (fun a b => a ^^^ b) ct (gcmKeystream key j0 ct.length))
    else none

/-! ### EncryptionService message encryption
(src/backend/app/services/encryption_service.py) -/

/-- Embeds `EncryptionService.generate_session_key`: SHA-256 of the master key
followed by `consultation_id ++ ":session"`. -/
def generate_session_key (master : List Nat) (cid : String) : List Nat :=
  sha256 (master ++ utf8Bytes (cid ++ ":session"))

/-- Embeds `EncryptionService.encrypt_message` (the `CRYPTO_AVAILABLE` AES-GCM
branch).  The fresh random 12-byte IV drawn by `generate_iv` is passed
explicitly; plaintext is the UTF-8 byte string, associated data likewise
(`[]` for `None`; GCM treats absent and empty associated data identically).
Returns base64 ciphertext-with-tag and base64 IV, as ASCII codes. -/
def encrypt_message (master pt : List Nat) (cid : String) (aad iv : List Nat) :
    List Nat × List Nat :=
  (b64encode (gcmEncrypt (generate_session_key master cid) iv pt aad),
   b64encode iv)

/-- Embeds `EncryptionService.decrypt_message` (AES-GCM branch): base64-decode
ciphertext and IV, decrypt under the re-derived session key; `none` models
the raised `InvalidTag`. -/
def decrypt_message (master : List Nat) (encContent iv : List Nat)
    (cid : String) (aad : List Nat) : Option (List Nat) :=
  gcmDecrypt (generate_session_key master cid) (b64decode iv)
    (b64decode encContent) aad

/-! ### Attachment Guard (encryption_service.py, module-level helpers) -/

/-- Embeds `os.path.basename` on POSIX: the part after the last `/`. -/
def basenamePosix (l : List Char) : List Char :=
  (l.reverse.takeWhile (fun c => c ≠ '/')).reverse

/-- Python `s.replace("..", "")`: left-to-right, non-overlapping. -/
def removeDotDot : List Char → List Char
  | '.' :: '.' :: rest => removeDotDot rest
  | c :: rest => c :: removeDotDot rest
  | [] => []

/-- The single dangerous characters removed by `sanitize_filename`
after the `".."` pass: `/`, `\`, NUL, LF, CR. -/
def isDangerChar (c : Char) : Bool :=
  c == '/' || c == '\\' || c == Char.ofNat 0 || c == '\n' || c == '\r'

/-- Embeds `os.path.splitext`: split off the extension at the last dot, unless every
character before that dot is itself a dot. -/
def splitext (l : List Char) : List Char × List Char :=
  if '.' ∈ l then
    let j := l.length - 1 - l.reverse.indexOf '.'
    if (l.take j).any (fun c => c ≠ '.') then (l.take j, l.drop j) else (l, [])
  else (l, [])

/-- Embeds `sanitize_filename`: strip path components, remove `".."` and dangerous
characters, truncate to 255 characters preserving the extension. -/
def sanitize_filename (s : String) : String :=
  let f1 := (removeDotDot (basenamePosix s.data)).filter (fun c => !(isDangerChar c))
  String.mk (if f1.length > 255 then
    (splitext f1).1.take (255 - (splitext f1).2.length) ++ (splitext f1).2
  else f1)

def ALLOWED_IMAGE_TYPES : List String :=
  ["image/jpeg", "image/png", "image/gif", "image/webp"]

def ALLOWED_DOCUMENT_TYPES : List String :=
  ["application/pdf", "application/msword",
   "application/vnd.openxmlformats-officedocument.wordprocessingml.document"]

def ALLOWED_ATTACHMENT_TYPES : List String :=
  ALLOWED_IMAGE_TYPES ++ ALLOWED_DOCUMENT_TYPES

def MAX_FILE_SIZE_BYTES : Nat := 10 * 1024 * 1024

/-- The magic-byte table of `_verify_file_signature` (no entries for the two
Word-document mimes). -/
def fileSignatures : List (String × List (List Nat)) :=
  [("image/jpeg", [[0xff, 0xd8, 0xff]]),
   ("image/png", [[0x89, 0x50, 0x4e, 0x47, 0x0d, 0x0a, 0x1a, 0x0a]]),
   ("image/gif", [[0x47, 0x49, 0x46, 0x38, 0x37, 0x61],
                  [0x47, 0x49, 0x46, 0x38, 0x39, 0x61]]),
   ("image/webp", [[0x52, 0x49, 0x46, 0x46]]),
   ("application/pdf", [[0x25, 0x50, 0x44, 0x46]])]

/-- Embeds `_verify_file_signature`: any content shorter than 8 bytes is rejected
before the table is consulted; a mime without a table entry is allowed. -/
def verifyFileSignature (content : List Nat) (mime : String) : Bool :=
  if content.length < 8 then false
  else
    match (fileSignatures.find? (fun p => p.1 == mime)) with
    | none => true
    | some p => p.2.any (fun sig => content.take sig.length == sig)

/-- Embeds `validate_attachment`: size cap, mime allow-list, filename sanitization,
magic-byte check, in that order. -/
def validate_attachment (content : List Nat) (filename mime : String) :
    Bool × String :=
  if content.length > MAX_FILE_SIZE_BYTES then
    (false, "File too large. Maximum size is 10 MB")
  else if mime ∉ ALLOWED_ATTACHMENT_TYPES then
    (false, "File type \x27" ++ mime ++ "\x27 not allowed")
  else if sanitize_filename filename = "" then
    (false, "Invalid filename")
  else if !(verifyFileSignature content mime) then
    (false, "File content does not match claimed type")
  else (true, "")

/-! ### Queue Ledger (src/backend/app/routers/appointments.py) -/

/-- The appointment record fields the queue operations touch
(`app.models.appointment.Appointment`; timestamps elided). -/
structure Appt where
  id : String
  patient_id : String
  doctor_id : String
  status : String
  mode : String
  queue_number : Nat
  queue_date : String
  meet_link : Option String
  notes : Option String
deriving DecidableEq

/-- Embeds `get_appointments_by_doctor_date`: all appointments for a doctor on a
date, regardless of status. -/
def get_appointments_by_doctor_date (store : List Appt) (doctorId date : String) :
    List Appt :=
  store.filter (fun a => a.doctor_id == doctorId && a.queue_date == date)

/-- Embeds `create_appointment` (router): `queue_number := count of existing
appointments for (doctor, queue_date) + 1`, status `pending`, no meeting
link; returns the new store and the assigned queue number.  The router
ignores the request's patient id and stores the literal
`"current_patient_id"` (an auth TODO in the source), so the `patientId`
argument is unused. -/
def create_appointment (store : List Appt)
    (apptId _patientId doctorId mode queueDate : String) : List Appt × Nat :=
  let qn := (get_appointments_by_doctor_date store doctorId queueDate).length + 1
  (store ++ [{ id := apptId, patient_id := "current_patient_id",
               doctor_id := doctorId,
               status := "pending", mode := mode, queue_number := qn,
               queue_date := queueDate, meet_link := none, notes := none }], qn)

/-- Embeds `reassign_patient`: look the appointment up, take the maximum queue
number over its (doctor, queue_date) — the Python `max(...)` over a list
that always contains the appointment itself — and move the appointment to
`max + 1`, recording the original number in an audit note. -/
def reassign_patient (store : List Appt) (apptId : String) :
    Option (List Appt × Nat) :=
  match store.find? (fun a => a.id == apptId) with
  | none => none
  | some appt =>
    let today := get_appointments_by_doctor_date store appt.doctor_id appt.queue_date
    let maxq := (today.map (fun a => a.queue_number)).foldl max 0
    some (store.map (fun a =>
      if a.id == apptId then
        { a with queue_number := maxq + 1,
                 notes := some ("Reassigned from queue #"
                   ++ toString appt.queue_number ++ " due to late arrival") }
      else a), maxq + 1)

/-- A sequential Queue Ledger call: a booking or a reassignment. -/
inductive QueueOp where
  | book (apptId patientId doctorId mode queueDate : String)
  | reassign (apptId : String)
deriving DecidableEq

def QueueOp.isBook : QueueOp → Bool
  | .book _ _ _ _ _ => true
  | .reassign _ => false

def applyQueueOp (store : List Appt) : QueueOp → List Appt
  | .book a p d m qd => (create_appointment store a p d m qd).1
  | .reassign aid =>
    match reassign_patient store aid with
    | some (st2, _) => st2
    | none => store

/-- Run a sequential interleaving of Queue Ledger calls from an empty store. -/
def runQueueOps (ops : List QueueOp) : List Appt :=
  ops.foldl applyQueueOp []

/-! ### Reputation Tracker
(`FirebaseService.update_patient_reputation`; the
`DatabaseService.update_patient_reputation` fallback is line-for-line the
same arithmetic) -/

structure PatientReputation where
  patient_id : String
  total_appointments : Nat
  completed_appointments : Nat
  no_show_count : Nat
  reputation_score : Int
deriving DecidableEq

/-- One outcome report.  An existing record gets the fixed clamped deltas and
an unconditional `total_appointments` increment; a first contact creates the
record with the delta already applied to the implicit starting score 50
(`40` after a no-show, `52` after a completion). -/
def update_patient_reputation (rec : Option PatientReputation)
    (patientId action : String) : PatientReputation :=
  match rec with
  | some d =>
    let d2 :=
      if action == "no_show" then
        { d with no_show_count := d.no_show_count + 1,
                 reputation_score := max 0 (d.reputation_score - 10) }
      else if action == "completed" then
        { d with completed_appointments := d.completed_appointments + 1,
                 reputation_score := min 100 (d.reputation_score + 2) }
      else d
    { d2 with total_appointments := d2.total_appointments + 1 }
  | none =>
    { patient_id := patientId,
      total_appointments := 1,
      completed_appointments := if action == "completed" then 1 else 0,
      no_show_count := if action == "no_show" then 1 else 0,
      reputation_score := if action == "no_show" then 40 else 52 }

/-- Runs `n` consecutive reports of the same outcome against an initially absent
record. -/
def iterateReports (patientId action : String) : Nat → Option PatientReputation
  | 0 => none
  | n + 1 => some (update_patient_reputation (iterateReports patientId action n)
      patientId action)

/-! ### Consultation Orchestrator (src/backend/app/routers/consultation.py)

The record store behind `get_database_service` is embedded as in-memory
lists; lookups are `find?` (the store's first match), updates map over the
list by id.  Timestamp fields, which no claim touches, are elided.
Python truthiness of an optional string (`None` and `""` are both falsy)
is `pyTruthy`. -/

/-- The `ConsultationSession` fields the orchestrator reads and writes
(`app.models.consultation.ConsultationSession`; a session created by
`send_message_by_appointment` carries no `is_online` key, which reads back
as falsy — embedded as `false`). -/
structure Consultation where
  id : String
  appointment_id : String
  doctor_id : String
  patient_id : String
  status : String
  is_online : Bool
  meet_link : Option String
  current_token : Option Nat
deriving DecidableEq

/-- The doctor-settings fields the orchestrator consults. -/
structure DoctorSettingsRec where
  doctor_id : String
  custom_meet_link : Option String
deriving DecidableEq

/-- A `SecureMessage` as persisted: ciphertext and IV only, never plaintext. -/
structure SecureMessageRec where
  id : String
  consultation_id : String
  appointment_id : String
  sender_type : String
  sender_id : String
  encrypted_content : List Nat
  iv : List Nat
deriving DecidableEq

/-- The record store visible to the consultation endpoints. -/
structure DBState where
  appointments : List Appt
  consultations : List Consultation
  messages : List SecureMessageRec
  settings : List DoctorSettingsRec
deriving DecidableEq

/-- Python truthiness of an optional string: `None` and `""` are falsy. -/
def pyTruthy : Option String → Bool
  | none => false
  | some s => !(s == "")

def findApptInState (st : DBState) (aid : String) : Option Appt :=
  st.appointments.find? (fun a => a.id == aid)

/-- Embeds `get_consultation_by_appointment`: first stored session for the
appointment. -/
def get_consultation_by_appointment (st : DBState) (aid : String) :
    Option Consultation :=
  st.consultations.find? (fun c => c.appointment_id == aid)

def get_consultation_by_id (st : DBState) (cid : String) : Option Consultation :=
  st.consultations.find? (fun c => c.id == cid)

def get_doctor_settings (st : DBState) (did : String) : Option DoctorSettingsRec :=
  st.settings.find? (fun s => s.doctor_id == did)

/-- Embeds `db.update_consultation(id, {"meet_link": link})`. -/
def updateConsultationLink (st : DBState) (cid link : String) : DBState :=
  { st with consultations := st.consultations.map (fun c =>
      if c.id == cid then { c with meet_link := some link } else c) }

/-- Embeds `db.update_consultation(id, {"status": status, ...timestamps})`. -/
def updateConsultationStatus (st : DBState) (cid status : String) : DBState :=
  { st with consultations := st.consultations.map (fun c =>
      if c.id == cid then { c with status := status } else c) }

/-- Embeds `db.update_appointment(id, {"status": status, ...})`. -/
def updateApptStatus (st : DBState) (aid status : String) : DBState :=
  { st with appointments := st.appointments.map (fun a =>
      if a.id == aid then { a with status := status } else a) }

/-- The one link-repair pass on an existing session: if it is online with
no truthy link and the doctor's settings carry a truthy fallback, persist
and return the repaired link; otherwise change nothing. -/
def repairExisting (st : DBState) (existing0 : Consultation) :
    Consultation × DBState :=
  if existing0.is_online && !(pyTruthy existing0.meet_link) then
    match get_doctor_settings st existing0.doctor_id with
    | some s =>
      if pyTruthy s.custom_meet_link then
        ({ existing0 with meet_link := s.custom_meet_link },
         updateConsultationLink st existing0.id (s.custom_meet_link.getD ""))
      else (existing0, st)
    | none => (existing0, st)
  else (existing0, st)

/-- The fresh session built by `start_consultation`: directly `in_progress`,
online flag from the appointment mode, link from the appointment with one
settings-fallback attempt. -/
def mkFreshConsultation (st : DBState) (freshId appointmentId : String)
    (appt : Appt) : Consultation :=
  let cons0 : Consultation :=
    { id := freshId, appointment_id := appointmentId,
      doctor_id := appt.doctor_id, patient_id := appt.patient_id,
      status := "in_progress",
      is_online := appt.mode == "online",
      meet_link := appt.meet_link,
      current_token := some appt.queue_number }
  if cons0.is_online && !(pyTruthy cons0.meet_link) then
    match get_doctor_settings st cons0.doctor_id with
    | some s =>
      if pyTruthy s.custom_meet_link then
        { cons0 with meet_link := s.custom_meet_link }
      else cons0
    | none => cons0
  else cons0

/-- Embeds `start_consultation` (POST /start/{appointment_id}).  An existing
session gets one link-repair pass from the doctor's settings if it is
online without a truthy link, then the `MEET_LINK_MISSING` guard runs
again; otherwise a fresh session is created directly in `in_progress`,
with the settings fallback and the same guard before anything is
persisted.  The random `generate_consultation_id` value is the `freshId`
parameter.  Errors are `(HTTP status, detail)`. -/
def start_consultation (st : DBState) (freshId appointmentId : String) :
    Except (Nat × String) Consultation × DBState :=
  match findApptInState st appointmentId with
  | none => (Except.error (404, "Appointment not found"), st)
  | some appt =>
    match get_consultation_by_appointment st appointmentId with
    | some existing0 =>
      let es := repairExisting st existing0
      if es.1.is_online && !(pyTruthy es.1.meet_link) then
        (Except.error (400, "MEET_LINK_MISSING"), es.2)
      else (Except.ok es.1, es.2)
    | none =>
      let cons1 := mkFreshConsultation st freshId appointmentId appt
      if cons1.is_online && !(pyTruthy cons1.meet_link) then
        (Except.error (400, "MEET_LINK_MISSING"), st)
      else
        let st2 := { st with consultations := st.consultations ++ [cons1] }
        (Except.ok cons1, updateApptStatus st2 appointmentId "in_progress")

/-- Embeds `update_consultation_status` (PUT /{consultation_id}/status): no
transition guard; stamps only status here (timestamps elided). -/
def update_consultation_status (st : DBState) (cid status : String) :
    Except (Nat × String) Unit × DBState :=
  match get_consultation_by_id st cid with
  | none => (Except.error (404, "Consultation not found"), st)
  | some _ => (Except.ok (), updateConsultationStatus st cid status)

/-- Embeds `finish_consultation` (POST /{consultation_id}/finish): completes the
session and its parent appointment. -/
def finish_consultation (st : DBState) (cid : String) :
    Except (Nat × String) Unit × DBState :=
  match get_consultation_by_id st cid with
  | none => (Except.error (404, "Consultation not found"), st)
  | some cons =>
    let st2 := updateConsultationStatus st cid "completed"
    (Except.ok (), updateApptStatus st2 cons.appointment_id "completed")

/-- Embeds `send_message` (POST /{consultation_id}/messages): requires only that
the session exists; encrypts under the session key derived from the
consultation id and stores ciphertext+IV.  The random message id and IV
are parameters. -/
def send_message (master : List Nat) (st : DBState)
    (msgId cid : String) (content iv : List Nat)
    (senderType senderId : String) :
    Except (Nat × String) SecureMessageRec × DBState :=
  match get_consultation_by_id st cid with
  | none => (Except.error (404, "Consultation not found"), st)
  | some cons =>
    let enc := encrypt_message master content cid [] iv
    let msg : SecureMessageRec :=
      { id := msgId, consultation_id := cid,
        appointment_id := cons.appointment_id,
        sender_type := senderType,
        sender_id := if senderId == "" then
            (if senderType == "doctor" then cons.doctor_id else cons.patient_id)
          else senderId,
        encrypted_content := enc.1, iv := enc.2 }
    (Except.ok msg, { st with messages := st.messages ++ [msg] })

/-- Embeds `send_message_by_appointment` (POST /messages/appointment/{id}):
creates a bare `waiting` session first if none exists (no `is_online`
key, no meeting link), then stores the encrypted message. -/
def send_message_by_appointment (master : List Nat) (st : DBState)
    (freshConsId msgId appointmentId : String) (content iv : List Nat)
    (senderType senderId : String) :
    Except (Nat × String) SecureMessageRec × DBState :=
  let found := get_consultation_by_appointment st appointmentId
  match found with
  | some cons =>
    let enc := encrypt_message master content cons.id [] iv
    let msg : SecureMessageRec :=
      { id := msgId, consultation_id := cons.id,
        appointment_id := appointmentId,
        sender_type := senderType,
        sender_id := if senderId == "" then
            (if senderType == "patient" then cons.patient_id else cons.doctor_id)
          else senderId,
        encrypted_content := enc.1, iv := enc.2 }
    (Except.ok msg, { st with messages := st.messages ++ [msg] })
  | none =>
    match findApptInState st appointmentId with
    | none => (Except.error (404, "Appointment not found"), st)
    | some appt =>
      let cons : Consultation :=
        { id := freshConsId, appointment_id := appointmentId,
          doctor_id := appt.doctor_id, patient_id := appt.patient_id,
          status := "waiting", is_online := false, meet_link := none,
          current_token := none }
      let st2 := { st with consultations := st.consultations ++ [cons] }
      let enc := encrypt_message master content cons.id [] iv
      let msg : SecureMessageRec :=
        { id := msgId, consultation_id := cons.id,
          appointment_id := appointmentId,
          sender_type := senderType,
          sender_id := if senderId == "" then
              (if senderType == "patient" then cons.patient_id
               else cons.doctor_id)
            else senderId,
          encrypted_content := enc.1, iv := enc.2 }
      (Except.ok msg, { st2 with messages := st2.messages ++ [msg] })

/-- Embeds `update_doctor_settings` (PUT /doctor/{doctor_id}/settings). -/
def update_doctor_settings (st : DBState) (did : String) (link : Option String) :
    DBState :=
  match get_doctor_settings st did with
  | some _ =>
    { st with settings := st.settings.map (fun s =>
        if s.doctor_id == did then { s with custom_meet_link := link } else s) }
  | none =>
    { st with settings := st.settings ++
        [{ doctor_id := did, custom_meet_link := link }] }

/-- One request against the system, with all server-side randomness
(fresh ids, IVs) as explicit arguments. -/
inductive SysOp where
  | book (apptId patientId doctorId mode queueDate : String)
  | reassign (apptId : String)
  | start (freshId apptId : String)
  | setStatus (cid status : String)
  | finish (cid : String)
  | sendMsg (msgId cid : String) (content iv : List Nat)
      (senderType senderId : String)
  | sendMsgByAppt (freshConsId msgId apptId : String) (content iv : List Nat)
      (senderType senderId : String)
  | setSettings (did : String) (link : Option String)
deriving DecidableEq

/-- Apply one request, keeping only the resulting store. -/
def applySysOp (master : List Nat) (st : DBState) : SysOp → DBState
  | .book a p d m qd =>
    { st with appointments := (create_appointment st.appointments a p d m qd).1 }
  | .reassign aid =>
    match reassign_patient st.appointments aid with
    | some (l, _) => { st with appointments := l }
    | none => st
  | .start fid aid => (start_consultation st fid aid).2
  | .setStatus cid s => (update_consultation_status st cid s).2
  | .finish cid => (finish_consultation st cid).2
  | .sendMsg mid cid content iv sty sid =>
    (send_message master st mid cid content iv sty sid).2
  | .sendMsgByAppt fcid mid aid content iv sty sid =>
    (send_message_by_appointment master st fcid mid aid content iv sty sid).2
  | .setSettings did link => update_doctor_settings st did link

/-- The empty store. -/
def emptyDB : DBState :=
  { appointments := [], consultations := [], messages := [], settings := [] }

/-- Run a request sequence from the empty store. -/
def runSysOps (master : List Nat) (ops : List SysOp) : DBState :=
  ops.foldl (applySysOp master) emptyDB

/-! ### Queue Ledger theorems (C4, C5) -/

/-- The booking-only queue invariant: on every (doctor, date) the stored
queue numbers are exactly `1, 2, …, count` in insertion order. -/
def QInv (store : List Appt) : Prop :=
  ∀ d t, (get_appointments_by_doctor_date store d t).map (fun a => a.queue_number)
    = List.range' 1 (get_appointments_by_doctor_date store d t).length

/-- A two-appointment demonstration store for the queue theorems. -/
def demoAppt1 : Appt :=
  { id := "a1", patient_id := "p1", doctor_id := "d", status := "pending",
    mode := "offline", queue_number := 1, queue_date := "t",
    meet_link := none, notes := none }

def demoAppt2 : Appt :=
  { id := "a2", patient_id := "p2", doctor_id := "d", status := "pending",
    mode := "offline", queue_number := 2, queue_date := "t",
    meet_link := none, notes := none }

/-- A demonstration store for the meet-link scenario: one online appointment
for a doctor whose settings carry no meeting link. -/
def demoOnlineAppt : Appt :=
  { id := "a1", patient_id := "current_patient_id", doctor_id := "d",
    status := "pending", mode := "online", queue_number := 1,
    queue_date := "t", meet_link := none, notes := none }

def demoStateNoLink : DBState :=
  { appointments := [demoOnlineAppt], consultations := [], messages := [],
    settings := [{ doctor_id := "d", custom_meet_link := none }] }

/-- A demonstration store with one offline appointment and no sessions. -/
def demoStateOffline : DBState :=
  { appointments :=
      [{ id := "a1", patient_id := "current_patient_id", doctor_id := "d",
         status := "pending", mode := "offline", queue_number := 1,
         queue_date := "t", meet_link := none, notes := none }],
    consultations := [], messages := [], settings := [] }

/-- The session the concrete double-start scenario creates. -/
def demoCreatedCons : Consultation :=
  { id := "c1", appointment_id := "a1", doctor_id := "d",
    patient_id := "current_patient_id", status := "in_progress",
    is_online := false, meet_link := none, current_token := some 1 }

/-- The C9 invariant: every stored session with the online flag set carries
a truthy (non-null, non-empty) meeting link. -/
def LinkInv (st : DBState) : Prop :=
  ∀ c ∈ st.consultations, c.is_online = true → pyTruthy c.meet_link = true

/-- A run that books an online appointment, starts it (the link resolved
from the doctor's settings), and sends one message through it. -/
def demoOps : List SysOp :=
  [SysOp.setSettings "d" (some "https://meet.example/x"),
   SysOp.book "a1" "p1" "d" "online" "t",
   SysOp.start "c1" "a1",
   SysOp.sendMsg "m1" "c1" [104, 105] [1, 2, 3, 4, 5, 6, 7, 8, 9, 10, 11, 12]
     "doctor" ""]

/-- The online session that `demoOps` creates. -/
def demoOnlineCons : Consultation :=
  { id := "c1", appointment_id := "a1", doctor_id := "d",
    patient_id := "current_patient_id", status := "in_progress",
    is_online := true, meet_link := some "https://meet.example/x",
    current_token := some 1 }

/-! ## Theorems -/

theorem natToBytesBE_length (k n : Nat) : (natToBytesBE k n).length = k := by
  induction k generalizing n with
  | zero => rfl
  | succ k ih => simp [natToBytesBE, ih]

theorem natToBytesBE_lt (k n : Nat) : ∀ b ∈ natToBytesBE k n, b < 256 := by
  induction k generalizing n with
  | zero => intro b hb; simp [natToBytesBE] at hb
  | succ k ih =>
    intro b hb
    simp only [natToBytesBE, List.mem_append, List.mem_singleton] at hb
    rcases hb with hb | hb
    · exact ih _ b hb
    · subst hb; exact Nat.mod_lt _ (by norm_num)

theorem charToSextet_sextetToChar_fin :
    ∀ s : Fin 64, charToSextet (sextetToChar s.val) = s.val := by decide

theorem charToSextet_sextetToChar {s : Nat} (h : s < 64) :
    charToSextet (sextetToChar s) = s :=
  charToSextet_sextetToChar_fin ⟨s, h⟩

theorem sextetToChar_ne_pad_fin : ∀ s : Fin 64, sextetToChar s.val ≠ 61 := by decide

theorem sextetToChar_ne_pad {s : Nat} (h : s < 64) : sextetToChar s ≠ 61 :=
  sextetToChar_ne_pad_fin ⟨s, h⟩

theorem mulAddDiv (k x r : Nat) (hk : 0 < k) (hr : r < k) : (x * k + r) / k = x := by
  rw [Nat.mul_comm, Nat.mul_add_div hk, Nat.div_eq_of_lt hr, Nat.add_zero]

theorem mulAddMod (k x r : Nat) (hr : r < k) : (x * k + r) % k = r := by
  rw [Nat.mul_comm, Nat.mul_add_mod, Nat.mod_eq_of_lt hr]

theorem b64_roundtrip (l : List Nat) (h : ∀ b ∈ l, b < 256) :
    b64decode (b64encode l) = l := by
  induction l using b64encode.induct with
  | case1 => simp [b64encode, b64decode]
  | case2 a =>
    have ha : a < 256 := h a (by simp)
    have h1 : a / 4 < 64 := by omega
    have h2 : a % 4 * 16 < 64 := by omega
    simp only [b64encode, b64decode, if_pos rfl,
      charToSextet_sextetToChar h1, charToSextet_sextetToChar h2]
    have e0 : a / 4 * 4 + a % 4 * 16 / 16 = a := by
      rw [Nat.mul_div_cancel _ (by norm_num : 0 < 16)]; omega
    rw [e0]; simp
  | case3 a b =>
    have ha : a < 256 := h a (by simp)
    have hb : b < 256 := h b (by simp)
    have h1 : a / 4 < 64 := by omega
    have h2 : a % 4 * 16 + b / 16 < 64 := by omega
    have h3 : b % 16 * 4 < 64 := by omega
    simp only [b64encode, b64decode, if_pos rfl,
      if_neg (sextetToChar_ne_pad h3),
      charToSextet_sextetToChar h1, charToSextet_sextetToChar h2,
      charToSextet_sextetToChar h3]
    have e0 : a / 4 * 4 + (a % 4 * 16 + b / 16) / 16 = a := by
      rw [mulAddDiv 16 (a % 4) (b / 16) (by norm_num) (by omega)]; omega
    have e1 : (a % 4 * 16 + b / 16) % 16 * 16 + b % 16 * 4 / 4 = b := by
      rw [mulAddMod 16 (a % 4) (b / 16) (by omega),
        Nat.mul_div_cancel _ (by norm_num : 0 < 4)]
      omega
    rw [e0, e1]; simp
  | case4 a b c rest ih =>
    have ha : a < 256 := h a (by simp)
    have hb : b < 256 := h b (by simp)
    have hc : c < 256 := h c (by simp)
    have h1 : a / 4 < 64 := by omega
    have h2 : a % 4 * 16 + b / 16 < 64 := by omega
    have h3 : b % 16 * 4 + c / 64 < 64 := by omega
    have h4 : c % 64 < 64 := by omega
    have hrest : ∀ x ∈ rest, x < 256 := by
      intro x hx; exact h x (by simp [hx])
    simp only [b64encode, b64decode, if_neg (sextetToChar_ne_pad h4),
      charToSextet_sextetToChar h1, charToSextet_sextetToChar h2,
      charToSextet_sextetToChar h3, charToSextet_sextetToChar h4,
      ih hrest]
    have e0 : a / 4 * 4 + (a % 4 * 16 + b / 16) / 16 = a := by
      rw [mulAddDiv 16 (a % 4) (b / 16) (by norm_num) (by omega)]; omega
    have e1 : (a % 4 * 16 + b / 16) % 16 * 16 + (b % 16 * 4 + c / 64) / 4 = b := by
      rw [mulAddMod 16 (a % 4) (b / 16) (by omega),
        mulAddDiv 4 (b % 16) (c / 64) (by norm_num) (by omega)]
      omega
    have e2 : (b % 16 * 4 + c / 64) % 4 * 64 + c % 64 = c := by
      rw [mulAddMod 4 (b % 16) (c / 64) (by omega)]; omega
    rw [e0, e1, e2]

theorem sha256_bytes_lt (msg : List Nat) : ∀ b ∈ sha256 msg, b < 256 := by
  intro b hb
  simp only [sha256, List.mem_flatMap] at hb
  obtain ⟨wd, _, hw⟩ := hb
  exact natToBytesBE_lt 4 wd b hw

/-- The constructive half of the signature round trip: a signature fresh from
`generate_signature` always re-verifies.  (Not a claim theorem: claim C3 also
demands tamper sensitivity, which is the second-preimage resistance of
HMAC-SHA256 and is not decidable in this embedding.) -/
theorem verify_signature_of_generate (master : List Nat)
    (content doctorId tsIso : String) :
    verify_signature master content doctorId tsIso
      (generate_signature master content doctorId tsIso) = true := by
  simp [verify_signature]

theorem b64encode_ne_nil_iff (l : List Nat) : b64encode l = [] ↔ l = [] := by
  cases l with
  | nil => simp [b64encode]
  | cons a t =>
    cases t with
    | nil => simp [b64encode]
    | cons b t2 =>
      cases t2 with
      | nil => simp [b64encode]
      | cons c r => simp [b64encode]

/-! ### Supporting lemmas for the encryption round trip -/

theorem xor_byte_lt {a b : Nat} (ha : a < 256) (hb : b < 256) : a ^^^ b < 256 := by
  have h8 : (256 : Nat) = 2 ^ 8 := by norm_num
  rw [h8] at ha hb ⊢
  exact Nat.xor_lt_two_pow ha hb

theorem zipWith_xor_lt (l1 l2 : List Nat) (h1 : ∀ x ∈ l1, x < 256)
    (h2 : ∀ x ∈ l2, x < 256) :
    ∀ z ∈ List.zipWith (fun a b => a ^^^ b) l1 l2, z < 256 := by
  induction l1 generalizing l2 with
  | nil => intro z hz; simp at hz
  | cons a t ih =>
    cases l2 with
    | nil => intro z hz; simp at hz
    | cons b t2 =>
      intro z hz
      simp only [List.zipWith_cons_cons, List.mem_cons] at hz
      rcases hz with hz | hz
      · subst hz
        exact xor_byte_lt (h1 a (by simp)) (h2 b (by simp))
      · exact ih t2 (fun x hx => h1 x (by simp [hx]))
          (fun x hx => h2 x (by simp [hx])) z hz

theorem getD_lt (l : List Nat) (i : Nat) (h : ∀ x ∈ l, x < 256) :
    l.getD i 0 < 256 := by
  by_cases hi : i < l.length
  · rw [List.getD_eq_getElem l 0 hi]
    exact h _ (List.getElem_mem hi)
  · rw [List.getD_eq_default l 0 (by omega)]
    norm_num

set_option maxRecDepth 4096 in
theorem sboxTable_all_lt : ∀ x ∈ sboxTable, x < 256 := by decide

theorem sbox_lt (b : Nat) : sbox b < 256 := getD_lt _ _ sboxTable_all_lt

theorem flatMap_natToBytesBE_lt (l : List Nat) (k : Nat) :
    ∀ b ∈ l.flatMap (natToBytesBE k), b < 256 := by
  intro b hb
  simp only [List.mem_flatMap] at hb
  obtain ⟨w, _, hw⟩ := hb
  exact natToBytesBE_lt k w b hw

theorem flatMap_natToBytesBE_length (l : List Nat) (k : Nat) :
    (l.flatMap (natToBytesBE k)).length = k * l.length := by
  induction l with
  | nil => simp
  | cons a t ih =>
    simp [List.flatMap_cons, natToBytesBE_length, ih, Nat.mul_succ]
    omega

theorem roundKey_lt (w : List Nat) (r : Nat) : ∀ b ∈ roundKey w r, b < 256 :=
  flatMap_natToBytesBE_lt _ 4

theorem shiftRows_lt (s : List Nat) (h : ∀ x ∈ s, x < 256) :
    ∀ b ∈ shiftRows s, b < 256 := by
  intro b hb
  simp only [shiftRows, List.mem_map] at hb
  obtain ⟨i, _, hi⟩ := hb
  rw [← hi]
  exact getD_lt s i h

theorem map_sbox_lt (s : List Nat) : ∀ x ∈ s.map sbox, x < 256 := by
  intro x hx
  simp only [List.mem_map] at hx
  obtain ⟨y, _, hy⟩ := hx
  rw [← hy]
  exact sbox_lt y

theorem aesEncryptBlock_lt (key block : List Nat) :
    ∀ b ∈ aesEncryptBlock key block, b < 256 := by
  intro b hb
  unfold aesEncryptBlock addRoundKey at hb
  exact zipWith_xor_lt _ _ (shiftRows_lt _ (map_sbox_lt _)) (roundKey_lt _ _) b hb

theorem keyExpandAux_length (w : List Nat) (k : Nat) :
    (keyExpandAux w k).length = w.length + k := by
  induction k generalizing w with
  | zero => simp [keyExpandAux]
  | succ k ih => simp [keyExpandAux, ih]; omega

theorem keyExpansion_length (key : List Nat) : (keyExpansion key).length = 60 := by
  simp [keyExpansion, keyExpandAux_length]

theorem roundKey_length (key : List Nat) (r : Nat) (hr : r ≤ 14) :
    (roundKey (keyExpansion key) r).length = 16 := by
  have h60 := keyExpansion_length key
  unfold roundKey
  rw [flatMap_natToBytesBE_length, List.length_take, List.length_drop, h60]
  omega

theorem shiftRows_length (s : List Nat) : (shiftRows s).length = 16 := by
  simp [shiftRows, shiftRowsIdx]

theorem aesEncryptBlock_length (key block : List Nat) :
    (aesEncryptBlock key block).length = 16 := by
  unfold aesEncryptBlock addRoundKey
  rw [List.length_zipWith, shiftRows_length, roundKey_length key 14 (by norm_num)]
  simp

theorem counterFrom_length (x n : Nat) : (counterFrom x n).length = n := by
  induction n generalizing x with
  | zero => rfl
  | succ n ih => simp [counterFrom, ih]

theorem flatMap_blocks_length (key : List Nat) (cbs : List Nat) :
    (cbs.flatMap (fun cb => aesEncryptBlock key (natToBytesBE 16 cb))).length
      = 16 * cbs.length := by
  induction cbs with
  | nil => simp
  | cons a t ih =>
    simp [List.flatMap_cons, aesEncryptBlock_length, ih, Nat.mul_succ]
    omega

theorem gcmKeystream_length (key : List Nat) (j0 len : Nat) :
    (gcmKeystream key j0 len).length = len := by
  unfold gcmKeystream
  rw [List.length_take, flatMap_blocks_length, counterFrom_length]
  omega

theorem gcmKeystream_lt (key : List Nat) (j0 len : Nat) :
    ∀ b ∈ gcmKeystream key j0 len, b < 256 := by
  intro b hb
  simp only [gcmKeystream] at hb
  have hb2 := List.mem_of_mem_take hb
  simp only [List.mem_flatMap] at hb2
  obtain ⟨cb, _, hcb⟩ := hb2
  exact aesEncryptBlock_lt _ _ b hcb

theorem gcmTag_length (key : List Nat) (j0 : Nat) (aad ct : List Nat) :
    (gcmTag key j0 aad ct).length = 16 := by
  simp [gcmTag, natToBytesBE_length]

theorem gcmTag_lt (key : List Nat) (j0 : Nat) (aad ct : List Nat) :
    ∀ b ∈ gcmTag key j0 aad ct, b < 256 := by
  intro b hb
  simp only [gcmTag] at hb
  exact natToBytesBE_lt 16 _ b hb

theorem zipWith_xor_cancel (l1 l2 : List Nat) (h : l1.length ≤ l2.length) :
    List.zipWith (fun a b => a ^^^ b)
      (List.zipWith (fun a b => a ^^^ b) l1 l2) l2 = l1 := by
  induction l1 generalizing l2 with
  | nil => simp
  | cons a t ih =>
    cases l2 with
    | nil => simp at h
    | cons b t2 =>
      simp only [List.zipWith_cons_cons, List.cons.injEq]
      exact ⟨Nat.xor_cancel_right b a, ih t2 (by simpa using h)⟩

theorem gcm_roundtrip (key iv pt aad : List Nat) :
    gcmDecrypt key iv (gcmEncrypt key iv pt aad) aad = some pt := by
  simp only [gcmEncrypt, gcmDecrypt]
  set j0 := bytesToNatBE (iv ++ [0, 0, 0, 1]) with hj0
  set ks := gcmKeystream key j0 pt.length with hksdef
  set body := List.zipWith (fun a b => a ^^^ b) pt ks with hbody
  set tag := gcmTag key j0 aad body with htag
  have hks : ks.length = pt.length := by rw [hksdef]; exact gcmKeystream_length _ _ _
  have hbl : body.length = pt.length := by
    rw [hbody, List.length_zipWith, hks]
    omega
  have htl : tag.length = 16 := by rw [htag]; exact gcmTag_length _ _ _ _
  have hgel : (body ++ tag).length = body.length + 16 := by
    rw [List.length_append, htl]
  have hsplit : (body ++ tag).length - 16 = body.length := by omega
  rw [if_neg (by omega)]
  simp only [hsplit, List.take_left, List.drop_left]
  simp only [if_true]
  rw [hbl, ← hksdef, hbody, zipWith_xor_cancel pt ks (by omega)]

/-- C1: for every plaintext byte string (the UTF-8 encoding of any Python
string, empty and multi-byte content included), every consultation id,
every associated data, and every 12-byte IV drawn by `generate_iv`,
`decrypt_message` applied to the `(ciphertext, iv)` pair produced by
`encrypt_message` with the same consultation id and associated data
returns exactly the plaintext. -/
theorem decrypt_message_encrypt_message (master pt : List Nat) (cid : String)
    (aad iv : List Nat) (hpt : ∀ b ∈ pt, b < 256) (hiv : ∀ b ∈ iv, b < 256)
    (_hivlen : iv.length = 12) :
    decrypt_message master (encrypt_message master pt cid aad iv).1
      (encrypt_message master pt cid aad iv).2 cid aad = some pt := by
  unfold decrypt_message encrypt_message
  have hct : ∀ b ∈ gcmEncrypt (generate_session_key master cid) iv pt aad, b < 256 := by
    intro b hb
    unfold gcmEncrypt at hb
    rw [List.mem_append] at hb
    rcases hb with hb | hb
    · exact zipWith_xor_lt _ _ hpt (gcmKeystream_lt _ _ _) b hb
    · exact gcmTag_lt _ _ _ _ b hb
  rw [b64_roundtrip _ hct, b64_roundtrip _ hiv]
  exact gcm_roundtrip _ _ _ _

/-- C1 witness: a concrete multi-byte UTF-8 plaintext round-trips through
encryption and decryption. -/
theorem decrypt_message_encrypt_message_witness :
    decrypt_message (masterKey []) (encrypt_message (masterKey [])
        (utf8Bytes "héllo") "cons_ab" (utf8Bytes "meta")
        [1, 2, 3, 4, 5, 6, 7, 8, 9, 10, 11, 12]).1
      (encrypt_message (masterKey []) (utf8Bytes "héllo") "cons_ab"
        (utf8Bytes "meta") [1, 2, 3, 4, 5, 6, 7, 8, 9, 10, 11, 12]).2
      "cons_ab" (utf8Bytes "meta") = some (utf8Bytes "héllo") :=
  decrypt_message_encrypt_message (masterKey []) (utf8Bytes "héllo") "cons_ab"
    (utf8Bytes "meta") [1, 2, 3, 4, 5, 6, 7, 8, 9, 10, 11, 12]
    (by decide) (by decide) (by decide)

/-- The fail-closed shape of `decrypt_message` (supporting lemma, not a claim
theorem): a plaintext is returned only when the recomputed tag over the
received ciphertext body equals the received tag, and what is returned is the
full CTR decryption of the body — never a partial prefix.  The computational
authenticity of AES-GCM (that a tamper actually flips the tag) is a
cryptographic property outside what the embedding can decide. -/
theorem gcmDecrypt_fail_closed (key iv data aad pt : List Nat)
    (h : gcmDecrypt key iv data aad = some pt) :
    16 ≤ data.length ∧
    gcmTag key (bytesToNatBE (iv ++ [0, 0, 0, 1])) aad
        (data.take (data.length - 16)) = data.drop (data.length - 16) ∧
    pt = List.zipWith (fun a b => a ^^^ b) (data.take (data.length - 16))
        (gcmKeystream key (bytesToNatBE (iv ++ [0, 0, 0, 1]))
          (data.take (data.length - 16)).length) := by
  unfold gcmDecrypt at h
  by_cases hlen : data.length < 16
  · rw [if_pos hlen] at h
    exact absurd h (by simp)
  · rw [if_neg hlen] at h
    by_cases htag : gcmTag key (bytesToNatBE (iv ++ [0, 0, 0, 1])) aad
        (data.take (data.length - 16)) = data.drop (data.length - 16)
    · rw [if_pos htag] at h
      refine ⟨by omega, htag, ?_⟩
      simpa using h.symm
    · rw [if_neg htag] at h
      exact absurd h (by simp)

/-- C10: for every byte string shorter than 8 bytes, `validate_attachment`
returns `(False, non-empty reason)` for every filename and every mime in the
attachment allow-list — the length guard in `_verify_file_signature` runs
before the signature table is consulted, so even a complete valid signature
(the 6-byte GIF header) and even the signature-less Word-document mimes are
rejected. -/
theorem validate_attachment_rejects_short (content : List Nat)
    (filename mime : String) (hlen : content.length < 8)
    (hmime : mime ∈ ALLOWED_ATTACHMENT_TYPES) :
    (validate_attachment content filename mime).1 = false ∧
    (validate_attachment content filename mime).2 ≠ "" := by
  have hsig : verifyFileSignature content mime = false := by
    unfold verifyFileSignature
    rw [if_pos hlen]
  have hsz : ¬ content.length > MAX_FILE_SIZE_BYTES := by
    unfold MAX_FILE_SIZE_BYTES
    omega
  unfold validate_attachment
  rw [if_neg hsz, if_neg (by simp [hmime])]
  by_cases hsafe : sanitize_filename filename = ""
  · rw [if_pos hsafe]
    simp
  · rw [if_neg hsafe, hsig]
    simp

/-- C10 witness: the full 6-byte GIF87a header, declared as `image/gif`, is
rejected with a non-empty reason. -/
theorem validate_attachment_rejects_short_witness :
    (validate_attachment [0x47, 0x49, 0x46, 0x38, 0x37, 0x61] "a.gif" "image/gif").1
        = false ∧
    (validate_attachment [0x47, 0x49, 0x46, 0x38, 0x37, 0x61] "a.gif" "image/gif").2
        ≠ "" :=
  validate_attachment_rejects_short _ _ _ (by decide) (by decide)

theorem QInv_nil : QInv [] := by
  intro d t
  simp [get_appointments_by_doctor_date]

theorem QInv_book (store : List Appt) (hinv : QInv store)
    (apptId patientId doctorId mode queueDate : String) :
    QInv (create_appointment store apptId patientId doctorId mode queueDate).1 := by
  intro d t
  unfold create_appointment get_appointments_by_doctor_date
  rw [List.filter_append]
  by_cases h : (doctorId == d && queueDate == t) = true
  · simp only [List.filter_cons, List.filter_nil, h, if_pos]
    have hd : doctorId = d := by
      simp only [Bool.and_eq_true, beq_iff_eq] at h
      exact h.1
    have ht : queueDate = t := by
      simp only [Bool.and_eq_true, beq_iff_eq] at h
      exact h.2
    subst hd
    subst ht
    have hbase := hinv doctorId queueDate
    unfold get_appointments_by_doctor_date at hbase
    rw [List.map_append, hbase]
    simp only [List.map_cons, List.map_nil, List.length_append,
      List.length_cons, List.length_nil]
    rw [List.range'_concat]
    simp
    omega
  · simp only [List.filter_cons, List.filter_nil, h]
    have hbase := hinv d t
    unfold get_appointments_by_doctor_date at hbase
    simpa using hbase

theorem QInv_run (ops : List QueueOp) (hops : ∀ op ∈ ops, op.isBook = true) :
    ∀ store, QInv store → QInv (ops.foldl applyQueueOp store) := by
  induction ops with
  | nil => intro store hinv; simpa using hinv
  | cons op rest ih =>
    intro store hinv
    have hbook : op.isBook = true := hops op (by simp)
    cases op with
    | book a p dd m qd =>
      simp only [List.foldl_cons, applyQueueOp]
      exact ih (fun o ho => hops o (by simp [ho])) _ (QInv_book store hinv a p dd m qd)
    | reassign aid => simp [QueueOp.isBook] at hbook

/-- C4 (amended): under sequential booking calls alone — no reassignment —
the queue numbers held for every (doctor, date) are pairwise distinct. -/
theorem queue_tokens_unique_of_bookings_only (ops : List QueueOp)
    (hops : ∀ op ∈ ops, op.isBook = true) (d t : String) :
    (((get_appointments_by_doctor_date (runQueueOps ops) d t)).map
      (fun a => a.queue_number)).Nodup := by
  have hinv := QInv_run ops hops [] QInv_nil d t
  unfold runQueueOps
  rw [hinv]
  exact List.nodup_range' _ _

/-- C4 witness: three bookings for one doctor and date yield distinct
tokens. -/
theorem queue_tokens_unique_of_bookings_only_witness :
    (((get_appointments_by_doctor_date (runQueueOps
        [QueueOp.book "a1" "p1" "d" "offline" "t",
         QueueOp.book "a2" "p2" "d" "offline" "t",
         QueueOp.book "a3" "p3" "d" "offline" "t"]) "d" "t")).map
      (fun a => a.queue_number)).Nodup :=
  queue_tokens_unique_of_bookings_only _ (by decide) "d" "t"

/-- C4 counterexample: the claim as stated is false for interleavings that
mix bookings and reassignments.  Book twice (tokens 1, 2), reassign the
first appointment (token 3 = max + 1), then book again: the booking rule
`count + 1` hands out token 3 a second time, so (doctor "d", date "t")
holds queue numbers `[3, 2, 3]`. -/
theorem queue_tokens_duplicate_counterexample :
    ¬ (((get_appointments_by_doctor_date (runQueueOps
        [QueueOp.book "a1" "p1" "d" "offline" "t",
         QueueOp.book "a2" "p2" "d" "offline" "t",
         QueueOp.reassign "a1",
         QueueOp.book "a3" "p3" "d" "offline" "t"]) "d" "t")).map
      (fun a => a.queue_number)).Nodup := by decide

theorem le_foldl_max (l : List Nat) (init : Nat) :
    (∀ x ∈ l, x ≤ l.foldl max init) ∧ init ≤ l.foldl max init := by
  induction l generalizing init with
  | nil => exact ⟨by intro x hx; simp at hx, le_refl _⟩
  | cons a t ih =>
    simp only [List.foldl_cons]
    refine ⟨?_, ?_⟩
    · intro x hx
      rcases List.mem_cons.mp hx with hx | hx
      · subst hx
        exact le_trans (Nat.le_max_right init x) (ih (max init x)).2
      · exact (ih (max init a)).1 x hx
    · exact le_trans (Nat.le_max_left init a) (ih (max init a)).2

/-- C5: reassigning an existing appointment hands it a queue number strictly
greater than every queue number stored for its (doctor, queue_date) before
the call, and attaches the audit note recording the original number. -/
theorem reassign_patient_back_of_queue (store : List Appt) (apptId : String)
    (appt : Appt) (hfind : store.find? (fun a => a.id == apptId) = some appt) :
    ∃ st2 newq, reassign_patient store apptId = some (st2, newq) ∧
      (∀ a ∈ get_appointments_by_doctor_date store appt.doctor_id appt.queue_date,
        a.queue_number < newq) ∧
      (∀ a ∈ st2, a.id = apptId → a.queue_number = newq ∧
        a.notes = some ("Reassigned from queue #" ++ toString appt.queue_number
          ++ " due to late arrival")) ∧
      (∃ a ∈ st2, a.id = apptId) := by
  unfold reassign_patient
  rw [hfind]
  refine ⟨_, _, rfl, ?_, ?_, ?_⟩
  · intro a ha
    have hle := (le_foldl_max ((get_appointments_by_doctor_date store
        appt.doctor_id appt.queue_date).map (fun a => a.queue_number)) 0).1
      a.queue_number (List.mem_map_of_mem _ ha)
    omega
  · intro a ha hid
    rcases List.mem_map.mp ha with ⟨b, _, hb⟩
    by_cases hbid : (b.id == apptId) = true
    · rw [if_pos hbid] at hb
      rw [← hb]
      exact ⟨rfl, rfl⟩
    · rw [if_neg hbid] at hb
      rw [← hb] at hid
      exact absurd (beq_iff_eq.mpr hid) hbid
  · have hmem := List.mem_of_find?_eq_some hfind
    have hpred := List.find?_some hfind
    simp only at hpred
    refine ⟨_, List.mem_map_of_mem _ hmem, ?_⟩
    rw [if_pos hpred]
    exact beq_iff_eq.mp hpred

/-- C5 witness: in a two-appointment queue, reassigning the first yields
token 3, strictly above tokens 1 and 2, with the audit note attached. -/
theorem reassign_patient_back_of_queue_witness :
    ∃ st2 newq,
      reassign_patient [demoAppt1, demoAppt2] "a1" = some (st2, newq) ∧
      (∀ a ∈ get_appointments_by_doctor_date [demoAppt1, demoAppt2]
          demoAppt1.doctor_id demoAppt1.queue_date,
        a.queue_number < newq) ∧
      (∀ a ∈ st2, a.id = "a1" → a.queue_number = newq ∧
        a.notes = some ("Reassigned from queue #"
          ++ toString demoAppt1.queue_number ++ " due to late arrival")) ∧
      (∃ a ∈ st2, a.id = "a1") :=
  reassign_patient_back_of_queue [demoAppt1, demoAppt2] "a1" demoAppt1 (by decide)

/-! ### Reputation Tracker theorems (C6) -/

theorem iterateReports_no_show_closed (pid : String) (n : Nat) (hn : 1 ≤ n) :
    iterateReports pid "no_show" n = some
      { patient_id := pid, total_appointments := n, completed_appointments := 0,
        no_show_count := n,
        reputation_score := max 0 (40 - 10 * ((n : Int) - 1)) } := by
  induction n with
  | zero => omega
  | succ n ih =>
    by_cases hn1 : 1 ≤ n
    · rw [iterateReports, ih hn1]
      simp [update_patient_reputation, PatientReputation.mk.injEq]
      omega
    · have hn0 : n = 0 := by omega
      subst hn0
      simp [iterateReports, update_patient_reputation, PatientReputation.mk.injEq]

theorem iterateReports_completed_closed (pid : String) (n : Nat) (hn : 1 ≤ n) :
    iterateReports pid "completed" n = some
      { patient_id := pid, total_appointments := n, completed_appointments := n,
        no_show_count := 0,
        reputation_score := min 100 (52 + 2 * ((n : Int) - 1)) } := by
  induction n with
  | zero => omega
  | succ n ih =>
    by_cases hn1 : 1 ≤ n
    · rw [iterateReports, ih hn1]
      simp [update_patient_reputation, PatientReputation.mk.injEq]
      omega
    · have hn0 : n = 0 := by omega
      subst hn0
      simp [iterateReports, update_patient_reputation, PatientReputation.mk.injEq]

theorem iterateReports_score_bounds (pid action : String) (n : Nat)
    (r : PatientReputation) (h : iterateReports pid action n = some r) :
    0 ≤ r.reputation_score ∧ r.reputation_score ≤ 100 := by
  induction n generalizing r with
  | zero => simp [iterateReports] at h
  | succ n ih =>
    simp only [iterateReports, Option.some.injEq] at h
    cases hprev : iterateReports pid action n with
    | none =>
      rw [hprev] at h
      rw [← h]
      simp only [update_patient_reputation]
      split <;> simp
    | some d =>
      rw [hprev] at h
      have hd := ih d hprev
      rw [← h]
      simp only [update_patient_reputation]
      split
      · simp
        omega
      · split
        · simp
          omega
        · omega

/-- C6: against an initially absent record, 100 consecutive no-shows leave
the score at exactly 0 and 100 consecutive completions leave it at exactly
100, with the matching counters at 100; after every prefix of either
sequence the score stays within [0, 100]; each report on an existing record
applies the fixed clamped delta and increments its counter, and
`total_appointments` increments on every report. -/
theorem update_patient_reputation_sequences (pid : String) :
    (∀ r, iterateReports pid "no_show" 100 = some r →
      r.reputation_score = 0 ∧ r.no_show_count = 100 ∧
      r.total_appointments = 100) ∧
    (∀ r, iterateReports pid "completed" 100 = some r →
      r.reputation_score = 100 ∧ r.completed_appointments = 100 ∧
      r.total_appointments = 100) ∧
    (∀ action n r, iterateReports pid action n = some r →
      0 ≤ r.reputation_score ∧ r.reputation_score ≤ 100) ∧
    (∀ d q, (update_patient_reputation (some d) q "no_show").reputation_score
        = max 0 (d.reputation_score - 10) ∧
      (update_patient_reputation (some d) q "no_show").no_show_count
        = d.no_show_count + 1) ∧
    (∀ d q, (update_patient_reputation (some d) q "completed").reputation_score
        = min 100 (d.reputation_score + 2) ∧
      (update_patient_reputation (some d) q "completed").completed_appointments
        = d.completed_appointments + 1) ∧
    (∀ o q action, (update_patient_reputation o q action).total_appointments
        = (match o with | some d => d.total_appointments | none => 0) + 1) := by
  refine ⟨?_, ?_, ?_, ?_, ?_, ?_⟩
  · intro r hr
    rw [iterateReports_no_show_closed pid 100 (by norm_num)] at hr
    simp only [Option.some.injEq] at hr
    rw [← hr]
    norm_num
  · intro r hr
    rw [iterateReports_completed_closed pid 100 (by norm_num)] at hr
    simp only [Option.some.injEq] at hr
    rw [← hr]
    norm_num
  · intro action n r hr
    exact iterateReports_score_bounds pid action n r hr
  · intro d q
    simp [update_patient_reputation]
  · intro d q
    simp [update_patient_reputation]
  · intro o q action
    cases o with
    | none => simp [update_patient_reputation]
    | some d =>
      simp only [update_patient_reputation]
      by_cases ha : (action == "no_show") = true
      · simp [ha]
      · by_cases hc : (action == "completed") = true <;> simp [ha, hc]

/-- C6 witness: the sequence facts instantiated — after three no-shows from
an absent record, the score is 20, inside [0, 100]. -/
theorem update_patient_reputation_sequences_witness :
    0 ≤ ({ patient_id := "p1", total_appointments := 3,
           completed_appointments := 0, no_show_count := 3,
           reputation_score := 20 } : PatientReputation).reputation_score ∧
    ({ patient_id := "p1", total_appointments := 3,
       completed_appointments := 0, no_show_count := 3,
       reputation_score := 20 } : PatientReputation).reputation_score ≤ 100 :=
  (update_patient_reputation_sequences "p1").2.2.1 "no_show" 3 _ (by decide)

/-! ### Consultation Orchestrator theorems (C7, C8, C9) -/

theorem mkFresh_appointment_id (st : DBState) (f a : String) (appt : Appt) :
    (mkFreshConsultation st f a appt).appointment_id = a := by
  simp only [mkFreshConsultation]
  repeat' split
  all_goals rfl

theorem mkFresh_id (st : DBState) (f a : String) (appt : Appt) :
    (mkFreshConsultation st f a appt).id = f := by
  simp only [mkFreshConsultation]
  repeat' split
  all_goals rfl

theorem mkFresh_online_no_fallback (st : DBState) (f a : String) (appt : Appt)
    (hmode : appt.mode = "online") (hlink : pyTruthy appt.meet_link = false)
    (hsettings : ∀ s, get_doctor_settings st appt.doctor_id = some s →
      pyTruthy s.custom_meet_link = false) :
    (mkFreshConsultation st f a appt).is_online = true ∧
    (mkFreshConsultation st f a appt).meet_link = appt.meet_link := by
  simp only [mkFreshConsultation, hmode, hlink]
  cases hs : get_doctor_settings st appt.doctor_id with
  | none => simp
  | some s => simp [hsettings s hs]

/-- C7: starting an online consultation with no existing session, when
neither the appointment nor the doctor's settings supply a (truthy) meeting
link, fails with the `MEET_LINK_MISSING` conflict (raised as HTTP 400 with
that detail) and persists nothing: afterwards no ConsultationSession exists
for the appointment and the appointment store is unchanged. -/
theorem start_consultation_meet_link_missing (st : DBState) (fresh aid : String)
    (appt : Appt) (hfind : findApptInState st aid = some appt)
    (hmode : appt.mode = "online") (hlink : pyTruthy appt.meet_link = false)
    (hnocons : get_consultation_by_appointment st aid = none)
    (hsettings : ∀ s, get_doctor_settings st appt.doctor_id = some s →
      pyTruthy s.custom_meet_link = false) :
    start_consultation st fresh aid
      = (Except.error (400, "MEET_LINK_MISSING"), st) ∧
    get_consultation_by_appointment (start_consultation st fresh aid).2 aid
      = none ∧
    (start_consultation st fresh aid).2.appointments = st.appointments := by
  obtain ⟨hon, hml⟩ := mkFresh_online_no_fallback st fresh aid appt hmode hlink hsettings
  have hres : start_consultation st fresh aid
      = (Except.error (400, "MEET_LINK_MISSING"), st) := by
    unfold start_consultation
    rw [hfind, hnocons]
    simp only [hon, hml, hlink]
    simp
  refine ⟨hres, ?_, ?_⟩
  · rw [hres]
    exact hnocons
  · rw [hres]

/-- C7 witness: the concrete no-link online start fails with
MEET_LINK_MISSING and leaves the store unchanged. -/
theorem start_consultation_meet_link_missing_witness :
    start_consultation demoStateNoLink "c1" "a1"
      = (Except.error (400, "MEET_LINK_MISSING"), demoStateNoLink) ∧
    get_consultation_by_appointment
      (start_consultation demoStateNoLink "c1" "a1").2 "a1" = none ∧
    (start_consultation demoStateNoLink "c1" "a1").2.appointments
      = demoStateNoLink.appointments :=
  start_consultation_meet_link_missing demoStateNoLink "c1" "a1" demoOnlineAppt
    (by decide) (by decide) (by decide) (by decide) (by decide)

theorem updateApptStatus_consultations (st : DBState) (aid s : String) :
    (updateApptStatus st aid s).consultations = st.consultations := rfl

/-- C8: if a first `start_consultation` call succeeds on an appointment with
no prior session, a second call returns the very same session record — in
particular the identical id — performs no further writes, and the store
holds exactly one session for that appointment. -/
theorem start_consultation_idempotent (st : DBState) (fresh1 fresh2 aid : String)
    (c : Consultation) (st1 : DBState)
    (hnone : get_consultation_by_appointment st aid = none)
    (hfirst : start_consultation st fresh1 aid = (Except.ok c, st1)) :
    start_consultation st1 fresh2 aid = (Except.ok c, st1) ∧ c.id = fresh1 ∧
    (st1.consultations.filter (fun x => x.appointment_id == aid)).length = 1 := by
  unfold start_consultation at hfirst
  cases happt : findApptInState st aid with
  | none =>
    rw [happt] at hfirst
    simp at hfirst
  | some appt =>
    rw [happt, hnone] at hfirst
    simp only at hfirst
    set cons1 := mkFreshConsultation st fresh1 aid appt with hcons1
    by_cases hg : (cons1.is_online && !(pyTruthy cons1.meet_link)) = true
    · rw [if_pos hg] at hfirst
      simp at hfirst
    · rw [if_neg hg] at hfirst
      rw [Prod.mk.injEq] at hfirst
      obtain ⟨hok, hst⟩ := hfirst
      injection hok with hc
      subst hc
      subst hst
      have happid : cons1.appointment_id = aid := mkFresh_appointment_id _ _ _ _
      refine ⟨?_, mkFresh_id _ _ _ _, ?_⟩
      · have hpf : ((fun a : Appt => a.id == aid) ∘ (fun a : Appt =>
            if a.id == aid then { a with status := "in_progress" } else a))
            = (fun a : Appt => a.id == aid) := by
          funext a
          by_cases h : (a.id == aid) = true
          · have ha : a.id = aid := beq_iff_eq.mp h
            simp [h, ha]
          · have ha : ¬ a.id = aid := fun e => h (beq_iff_eq.mpr e)
            simp [h, ha]
        have hfind2 : findApptInState (updateApptStatus
            { st with consultations := st.consultations ++ [cons1] }
            aid "in_progress") aid = some (if appt.id == aid then
              { appt with status := "in_progress" } else appt) := by
          show (st.appointments.map _).find? _ = _
          rw [List.find?_map, hpf]
          rw [show st.appointments.find? (fun a : Appt => a.id == aid)
              = some appt from happt]
          rfl
        have hfindc : get_consultation_by_appointment (updateApptStatus
            { st with consultations := st.consultations ++ [cons1] }
            aid "in_progress") aid = some cons1 := by
          show (st.consultations ++ [cons1]).find? _ = _
          rw [List.find?_append]
          rw [show st.consultations.find?
              (fun c : Consultation => c.appointment_id == aid)
              = none from hnone]
          simp [List.find?_cons, happid]
        unfold start_consultation
        rw [hfind2, hfindc]
        simp only
        have hrep : repairExisting (updateApptStatus
            { st with consultations := st.consultations ++ [cons1] }
            aid "in_progress") cons1 = (cons1, updateApptStatus
            { st with consultations := st.consultations ++ [cons1] }
            aid "in_progress") := by
          unfold repairExisting
          rw [if_neg hg]
        rw [hrep]
        rw [if_neg hg]
      · show ((st.consultations ++ [cons1]).filter
            (fun x => x.appointment_id == aid)).length = 1
        rw [List.filter_append]
        rw [show st.consultations.filter
            (fun x : Consultation => x.appointment_id == aid) = [] from by
          rw [List.filter_eq_nil_iff]
          intro a ha
          exact (List.find?_eq_none.mp hnone) a ha]
        simp [List.filter_cons, happid]

/-- C8 witness: a concrete double start returns the same session id twice
and leaves exactly one stored session. -/
theorem start_consultation_idempotent_witness :
    start_consultation (start_consultation demoStateOffline "c1" "a1").2
        "c2" "a1"
      = (Except.ok demoCreatedCons,
         (start_consultation demoStateOffline "c1" "a1").2) ∧
    demoCreatedCons.id = "c1" ∧
    ((start_consultation demoStateOffline "c1" "a1").2.consultations.filter
      (fun x => x.appointment_id == "a1")).length = 1 :=
  start_consultation_idempotent demoStateOffline "c1" "c2" "a1"
    demoCreatedCons (start_consultation demoStateOffline "c1" "a1").2
    (by decide) (by rfl)

theorem pyTruthy_some_getD (o : Option String) :
    pyTruthy (some (o.getD "")) = pyTruthy o := by
  cases o <;> simp [pyTruthy]

theorem linkInv_map (l : List Consultation) (f : Consultation → Consultation)
    (hf : ∀ b : Consultation, (f b).is_online = b.is_online ∧
      ((f b).meet_link = b.meet_link ∨ pyTruthy (f b).meet_link = true))
    (h : ∀ c ∈ l, c.is_online = true → pyTruthy c.meet_link = true) :
    ∀ c ∈ l.map f, c.is_online = true → pyTruthy c.meet_link = true := by
  intro c hc hon
  rcases List.mem_map.mp hc with ⟨b, hb, rfl⟩
  obtain ⟨h1, h2⟩ := hf b
  rcases h2 with h2 | h2
  · rw [h2]
    exact h b hb (h1 ▸ hon)
  · exact h2

theorem LinkInv_repairExisting (st : DBState) (ex : Consultation)
    (h : LinkInv st) : LinkInv (repairExisting st ex).2 := by
  unfold repairExisting
  split
  · split
    · split
      · rename_i s _ hlink
        intro c hc hon
        refine linkInv_map st.consultations _ ?_ h c hc hon
        intro b
        constructor
        · split <;> rfl
        · by_cases hb : (b.id == ex.id) = true
          · rw [if_pos hb]
            right
            rw [pyTruthy_some_getD]
            exact hlink
          · rw [if_neg hb]
            left
            rfl
      · exact h
    · exact h
  · exact h

theorem LinkInv_step (master : List Nat) (st : DBState) (op : SysOp)
    (h : LinkInv st) : LinkInv (applySysOp master st op) := by
  cases op with
  | book a p d m qd => exact h
  | reassign aid =>
    simp only [applySysOp]
    cases hr : reassign_patient st.appointments aid with
    | none => exact h
    | some pair => exact h
  | setStatus cid s =>
    simp only [applySysOp, update_consultation_status]
    cases hr : get_consultation_by_id st cid with
    | none => exact h
    | some cons =>
      intro c hc hon
      refine linkInv_map st.consultations _ ?_ h c hc hon
      intro b
      exact ⟨by split <;> rfl, Or.inl (by split <;> rfl)⟩
  | finish cid =>
    simp only [applySysOp, finish_consultation]
    cases hr : get_consultation_by_id st cid with
    | none => exact h
    | some cons =>
      intro c hc hon
      refine linkInv_map st.consultations _ ?_ h c hc hon
      intro b
      exact ⟨by split <;> rfl, Or.inl (by split <;> rfl)⟩
  | sendMsg mid cid content iv sty sid =>
    simp only [applySysOp, send_message]
    cases hr : get_consultation_by_id st cid with
    | none => exact h
    | some cons => exact h
  | sendMsgByAppt fcid mid aid content iv sty sid =>
    simp only [applySysOp, send_message_by_appointment]
    cases hr : get_consultation_by_appointment st aid with
    | some cons => exact h
    | none =>
      cases ha : findApptInState st aid with
      | none => exact h
      | some appt =>
        intro c hc hon
        rcases List.mem_append.mp hc with hc | hc
        · exact h c hc hon
        · simp at hc
          rw [hc] at hon
          simp at hon
  | setSettings did link =>
    simp only [applySysOp, update_doctor_settings]
    cases hr : get_doctor_settings st did with
    | none => exact h
    | some s => exact h
  | start fid aid =>
    simp only [applySysOp, start_consultation]
    cases ha : findApptInState st aid with
    | none => exact h
    | some appt =>
      cases hcons : get_consultation_by_appointment st aid with
      | some ex =>
        simp only
        split
        · exact LinkInv_repairExisting st ex h
        · exact LinkInv_repairExisting st ex h
      | none =>
        simp only
        split
        · exact h
        · rename_i hng
          intro c hc hon
          rcases List.mem_append.mp hc with hc | hc
          · exact h c hc hon
          · simp at hc
            subst hc
            cases hpt : pyTruthy (mkFreshConsultation st fid aid appt).meet_link with
            | true => rfl
            | false =>
              exact absurd (by rw [hon, hpt]; rfl) hng

/-- Every store reachable from empty through the embedded requests
satisfies the link invariant. -/
theorem LinkInv_run (master : List Nat) (ops : List SysOp) :
    LinkInv (runSysOps master ops) := by
  unfold runSysOps
  have hgen : ∀ (l : List SysOp) (st : DBState), LinkInv st →
      LinkInv (l.foldl (applySysOp master) st) := by
    intro l
    induction l with
    | nil => intro st hst; exact hst
    | cons op rest ih =>
      intro st hst
      exact ih _ (LinkInv_step master st op hst)
  apply hgen
  intro c hc _
  simp [emptyDB] at hc

/-- C9: in every store reachable through the embedded requests, a session
whose online flag is set and through which a message has flowed carries a
non-null meeting link.  (The guarantee comes from session creation and the
repair pass, which never produce an online session without a truthy link;
the send operations themselves perform no link check.) -/
theorem online_message_sessions_have_link (master : List Nat)
    (ops : List SysOp) (c : Consultation)
    (hc : c ∈ (runSysOps master ops).consultations)
    (hon : c.is_online = true)
    (_hmsg : ∃ m ∈ (runSysOps master ops).messages, m.consultation_id = c.id) :
    c.meet_link ≠ none := by
  have ht := LinkInv_run master ops c hc hon
  cases hml : c.meet_link with
  | none =>
    rw [hml] at ht
    simp [pyTruthy] at ht
  | some l => simp

/-- C9 witness: the concrete online session that carried a message holds a
non-null meeting link. -/
theorem online_message_sessions_have_link_witness :
    demoOnlineCons.meet_link ≠ none :=
  online_message_sessions_have_link [] demoOps demoOnlineCons
    (by decide) (by decide) (by decide)

end MedVision
